import Mathlib

/-!
Shallow embedding of the soft-delete/restore lifecycle core of the
nextbackend repository (repository layer for Users, Products and
Categories, plus the service wrappers the claims mention).

Conventions of the embedding:
* a Mongo collection is a `List` of records, in insertion order;
  `findOne` is `List.find?`, `countDocuments` is `List.length` of the
  filtered list, and `findByIdAndUpdate` updates the first record whose
  id matches (`updateFirstBy`), returning -- as the source always passes
  `new: true` -- the post-update document;
* `Date` values are `Nat` tick counts; `deletedAt : Option Nat` with
  `none` for the stored `null` (active record);
* TypeScript `boolean | null | undefined` flag values are the four-point
  type `JSBool`, so that the source's `!== true` and truthiness tests
  can be translated exactly;
* a `RegExp(pat, makeCaseInsensitive)` filter value is kept as its pattern
  string in the query object and evaluated as a case-insensitive
  containment test (`iRegexTest`);
* `throw`/`try`/`catch` become `Except RepoError`; mutating repository
  operations return the result together with the final state of the
  collection, so that claims about absence of mutation are expressible.
-/

/-- JS-style boolean that distinguishes `true`, `false`, `null` and
`undefined`, as the source's `includeDeleted` checks do. -/
inductive JSBool where
  | jtrue
  | jfalse
  | jnull
  | jundefined
deriving Repr, DecidableEq

/-- Truthiness of a `JSBool` (only `true` is truthy among the four). -/
def JSBool.truthy : JSBool → Bool
  | .jtrue => true
  | _ => false

/-- Error taxonomy of src/src/lib/errors.ts, restricted to the classes the
embedded operations raise. -/
inductive RepoError where
  | conflict (msg : String)
  | internal (msg : String)
  | notFound (msg : String)
  | unauthorized (msg : String)
deriving Repr, DecidableEq

/-- Outcome of a store write (`Model.create`): either the created document
or a MongoDB error code (11000 is the duplicate-key code the source
tests for). The store itself is external to the repository code under
test, so its outcome is an input of the embedded `create`. -/
inductive StoreWrite (α : Type) where
  | ok (val : α)
  | errCode (code : Nat)
deriving Repr, DecidableEq

/-- PaginatedData of src/src/lib/types/repositories/global.ts. -/
structure PaginatedData (α : Type) where
  data : List α
  hasNext : Bool
  hasPrev : Bool
  shownEntryCount : Nat
deriving Repr, DecidableEq

/-- ActingUser of src/src/lib/types/services/global.ts. -/
structure ActingUser where
  id : Nat
  isAdmin : Bool
deriving Repr, DecidableEq

/-- Truthiness of an optional string (JS: absent and the empty string are
falsy). -/
def strTruthy : Option String → Bool
  | some s => !s.isEmpty
  | none => false

/-- Truthiness of an optional number (JS: absent and 0 are falsy). -/
def natTruthy : Option Nat → Bool
  | some n => n != 0
  | none => false

/-- Tests whether the first list is a leading segment of the second. -/
def leadMatch : List Char → List Char → Bool
  | [], _ => true
  | _ :: _, [] => false
  | a :: as, b :: bs => a == b && leadMatch as bs

/-- Tests whether the first list occurs contiguously inside the second. -/
def subMatch (pat : List Char) : List Char → Bool
  | [] => leadMatch pat []
  | b :: bs => leadMatch pat (b :: bs) || subMatch pat bs

/-- Evaluation of a case-insensitive `RegExp` filter value built from a
plain fragment: case-insensitive containment of the pattern. -/
def iRegexTest (pat s : String) : Bool :=
  subMatch pat.toLower.toList s.toLower.toList

/-- Semantics of `findByIdAndUpdate(id, f, new:true)` over a list store:
update the first record whose id matches, returning the post-update
document (or `none` when the id is absent) and the new collection. -/
def updateFirstBy {α : Type} (idOf : α → Nat) (id : Nat) (f : α → α) :
    List α → Option α × List α
  | [] => (none, [])
  | a :: l =>
    if idOf a == id then (some (f a), f a :: l)
    else
      let r := updateFirstBy idOf id f l
      (r.1, a :: r.2)

/-- Insert into a list sorted by `le`. -/
def insertBy {α : Type} (le : α → α → Bool) (a : α) : List α → List α
  | [] => [a]
  | b :: l => if le a b then a :: b :: l else b :: insertBy le a l

/-- Deterministic comparison sort standing in for the store's `.sort()`;
none of the verified properties depend on the produced order, only on
it being a permutation. -/
def insSortBy {α : Type} (le : α → α → Bool) : List α → List α
  | [] => []
  | a :: l => insertBy le a (insSortBy le l)

/-- Sort direction (`sortOrder` filter field). -/
inductive SortDirection where
  | asc
  | desc
deriving Repr, DecidableEq

/-! ## User entity (src/src/lib/auth.ts part 3, the user repository file) -/

/-- IUser record, restricted to the fields the core reads (timestamps come
from the schema's `timestamps: true`). -/
structure IUser where
  id : Nat
  firstName : String
  lastName : String
  email : String
  createdAt : Nat
  updatedAt : Nat
  deletedAt : Option Nat
deriving Repr, DecidableEq

/-- Sortable user fields (`sortBy` of UserFilters). -/
inductive UserSortField where
  | createdAt
  | updatedAt
  | firstName
deriving Repr, DecidableEq

/-- UserFilters of src/src/lib/types/repositories (part_007). -/
structure UserFilters where
  firstName : String := ""
  lastName : String := ""
  email : String := ""
  sortBy : Option UserSortField := none
  sortOrder : Option SortDirection := none
  pageNumber : Nat
  entryPerPage : Nat
  includeDeleted : JSBool := .jundefined
deriving Repr, DecidableEq

/-- UserQuery: regex fragments are kept as their pattern strings;
`deletedAt = some none` is the `deletedAt: null` restriction. -/
structure UserQuery where
  firstName : Option String := none
  lastName : Option String := none
  email : Option String := none
  deletedAt : Option (Option Nat) := none
deriving Repr, DecidableEq

/-- generateQuery of the user repository file: each `if` of the source
conditionally sets one distinct field of the query object, rendered here
as one conditional per field. -/
def UserRepository.generateQuery (filters : UserFilters) : UserQuery :=
  { firstName := if !filters.firstName.isEmpty then some filters.firstName else none,
    lastName := if !filters.lastName.isEmpty then some filters.lastName else none,
    email := if !filters.email.isEmpty then some filters.email else none,
    deletedAt := if filters.includeDeleted != .jtrue then some none else none }

/-- Store evaluation of a UserQuery against one document. -/
def matchesUserQuery (q : UserQuery) (u : IUser) : Bool :=
  (match q.firstName with
   | some pat => iRegexTest pat u.firstName
   | none => true) &&
  (match q.lastName with
   | some pat => iRegexTest pat u.lastName
   | none => true) &&
  (match q.email with
   | some pat => iRegexTest pat u.email
   | none => true) &&
  (match q.deletedAt with
   | some v => u.deletedAt == v
   | none => true)

/-- Comparison on one user sort field. -/
def userFieldLe (field : UserSortField) (a b : IUser) : Bool :=
  match field with
  | .createdAt => decide (a.createdAt ≤ b.createdAt)
  | .updatedAt => decide (a.updatedAt ≤ b.updatedAt)
  | .firstName => decide (a.firstName ≤ b.firstName)

/-- Sort relation from the filters: `sortBy with createdAt default` and
`sortOrder compared against asc, anything else meaning descending`. -/
def userSortLe (filters : UserFilters) (a b : IUser) : Bool :=
  if filters.sortOrder == some .asc then userFieldLe (filters.sortBy.getD .createdAt) a b
  else userFieldLe (filters.sortBy.getD .createdAt) b a

/-- UserRepository.findByEmail: query `{email}` plus `deletedAt: null`
unless the options make includeDeleted truthy. -/
def UserRepository.findByEmail (store : List IUser) (email : String)
    (includeDeleted : JSBool) : Except RepoError (Option IUser) :=
  .ok (store.find? (fun u =>
    u.email == email &&
    (if !includeDeleted.truthy then u.deletedAt == none else true)))

/-- UserRepository.create: translate the store outcome; duplicate-key
(code 11000) becomes ConflictError, anything else InternalServerError. -/
def UserRepository.create (res : StoreWrite IUser) : Except RepoError IUser :=
  match res with
  | .ok u => .ok u
  | .errCode code =>
    if code == 11000 then
      .error (.conflict "A user with this email already exists")
    else
      .error (.internal "Kullanici olusturulamadi")

/-- UserRepository.delete: `findByIdAndUpdate(id, deletedAt := now, new:true)`. -/
def UserRepository.delete (store : List IUser) (id : Nat) (now : Nat) :
    Except RepoError (Option IUser) × List IUser :=
  let r := updateFirstBy (·.id) id (fun u => { u with deletedAt := some now }) store
  (.ok r.1, r.2)

/-- Body of UserRepository.restore (the content of its `try` block):
lookup requiring a tombstone, conflict scan over other active users with
the same email, then clear the tombstone. -/
def UserRepository.restoreTry (store : List IUser) (id : Nat) :
    Except RepoError (Option IUser) × List IUser :=
  match store.find? (fun u => u.id == id && u.deletedAt != none) with
  | none => (.ok none, store)
  | some userToRestore =>
    match store.find? (fun u =>
        u.id != id && u.deletedAt == none && u.email == userToRestore.email) with
    | some _ =>
      (.error (.conflict "Bu e-posta adresine sahip baska bir kullanici var"), store)
    | none =>
      let r := updateFirstBy (·.id) id (fun u => { u with deletedAt := none }) store
      (.ok r.1, r.2)

/-- UserRepository.restore: its catch block re-throws ConflictError and
wraps everything else as InternalServerError. -/
def UserRepository.restore (store : List IUser) (id : Nat) :
    Except RepoError (Option IUser) × List IUser :=
  match UserRepository.restoreTry store id with
  | (.error (.conflict msg), s) => (.error (.conflict msg), s)
  | (.error _, s) => (.error (.internal "Kullanici geri yuklenemedi"), s)
  | ok => ok

/-- UserRepository.findAll: offset, generated query, concurrent count and
sorted/offset/limited fetch, assembled page. -/
def UserRepository.findAll (store : List IUser) (filters : UserFilters) :
    Except RepoError (PaginatedData IUser) :=
  let offset := (filters.pageNumber - 1) * filters.entryPerPage
  let query := UserRepository.generateQuery filters
  let totalUsers := (store.filter (matchesUserQuery query)).length
  let users :=
    ((insSortBy (userSortLe filters) (store.filter (matchesUserQuery query))).drop
        offset).take filters.entryPerPage
  .ok
    { data := users,
      hasNext := decide (offset + users.length < totalUsers),
      hasPrev := decide (filters.pageNumber > 1),
      shownEntryCount := users.length }

/-! ## Product entity (unnamed/part_012, the product repository file) -/

/-- IProduct record, restricted to the fields the core reads. -/
structure IProduct where
  id : Nat
  name : String
  slug : String
  categoryId : Nat
  stock : Nat
  price : Nat
  createdAt : Nat
  updatedAt : Nat
  deletedAt : Option Nat
deriving Repr, DecidableEq

/-- Sortable product fields. -/
inductive ProductSortField where
  | name
  | price
  | createdAt
  | updatedAt
deriving Repr, DecidableEq

/-- ProductFilters of part_006. -/
structure ProductFilters where
  pageNumber : Nat
  entryPerPage : Nat
  name : Option String := none
  categoryId : Option Nat := none
  inStock : Option Bool := none
  minPrice : Option Nat := none
  maxPrice : Option Nat := none
  sortBy : Option ProductSortField := none
  sortOrder : Option SortDirection := none
  includeDeleted : JSBool := .jundefined
deriving Repr, DecidableEq

/-- Price sub-query (`price: {$gte?, $lte?}`). -/
structure PriceRange where
  gte : Option Nat := none
  lte : Option Nat := none
deriving Repr, DecidableEq

/-- ProductQuery of part_006; `stockGt = some 0` is `stock: {$gt: 0}`. -/
structure ProductQuery where
  name : Option String := none
  categoryId : Option Nat := none
  stockGt : Option Nat := none
  price : Option PriceRange := none
  deletedAt : Option (Option Nat) := none
deriving Repr, DecidableEq

/-- generateQuery of the product repository file, one conditional per
query field as in the source (category ids are ObjectId strings, which
are never empty, so their JS truthiness is presence). -/
def ProductRepository.generateQuery (filters : ProductFilters) : ProductQuery :=
  { name := if strTruthy filters.name then filters.name else none,
    categoryId := filters.categoryId,
    stockGt := if filters.inStock == some true then some 0 else none,
    price :=
      if natTruthy filters.minPrice || natTruthy filters.maxPrice then
        some
          { gte := if natTruthy filters.minPrice then filters.minPrice else none,
            lte := if natTruthy filters.maxPrice then filters.maxPrice else none }
      else none,
    deletedAt := if filters.includeDeleted != .jtrue then some none else none }

/-- Store evaluation of a ProductQuery against one document. -/
def matchesProductQuery (q : ProductQuery) (p : IProduct) : Bool :=
  (match q.name with
   | some pat => iRegexTest pat p.name
   | none => true) &&
  (match q.categoryId with
   | some cid => p.categoryId == cid
   | none => true) &&
  (match q.stockGt with
   | some n => decide (n < p.stock)
   | none => true) &&
  (match q.price with
   | some r =>
     (match r.gte with
      | some m => decide (m ≤ p.price)
      | none => true) &&
     (match r.lte with
      | some m => decide (p.price ≤ m)
      | none => true)
   | none => true) &&
  (match q.deletedAt with
   | some v => p.deletedAt == v
   | none => true)

/-- Comparison on one product sort field. -/
def productFieldLe (field : ProductSortField) (a b : IProduct) : Bool :=
  match field with
  | .name => decide (a.name ≤ b.name)
  | .price => decide (a.price ≤ b.price)
  | .createdAt => decide (a.createdAt ≤ b.createdAt)
  | .updatedAt => decide (a.updatedAt ≤ b.updatedAt)

/-- Sort relation from the product filters. -/
def productSortLe (filters : ProductFilters) (a b : IProduct) : Bool :=
  if filters.sortOrder == some .asc then productFieldLe (filters.sortBy.getD .createdAt) a b
  else productFieldLe (filters.sortBy.getD .createdAt) b a

/-- ProductRepository.create: on a store error the source only logs a
warning in the `code 11000` branch and then falls through, so every
store error surfaces as InternalServerError. -/
def ProductRepository.create (res : StoreWrite IProduct) : Except RepoError IProduct :=
  match res with
  | .ok p => .ok p
  | .errCode _ => .error (.internal "Urun olusturulamadi")

/-- ProductRepository.delete. -/
def ProductRepository.delete (store : List IProduct) (id : Nat) (now : Nat) :
    Except RepoError (Option IProduct) × List IProduct :=
  let r := updateFirstBy (·.id) id (fun p => { p with deletedAt := some now }) store
  (.ok r.1, r.2)

/-- Body of ProductRepository.restore: lookup requiring a tombstone,
conflict scan (`$or` over name and slug) among other active products,
then clear the tombstone. -/
def ProductRepository.restoreTry (store : List IProduct) (id : Nat) :
    Except RepoError (Option IProduct) × List IProduct :=
  match store.find? (fun p => p.id == id && p.deletedAt != none) with
  | none => (.ok none, store)
  | some productToRestore =>
    match store.find? (fun p =>
        p.id != id && p.deletedAt == none &&
        (p.name == productToRestore.name || p.slug == productToRestore.slug)) with
    | some _ =>
      (.error (.conflict "Aktif urunler arasinda ayni isme veya sluga sahip baska bir urun var"), store)
    | none =>
      let r := updateFirstBy (·.id) id (fun p => { p with deletedAt := none }) store
      (.ok r.1, r.2)

/-- ProductRepository.restore: unlike the user repository, its catch block
has no ConflictError re-throw, so every error raised inside the body --
including the ConflictError of the conflict scan -- is wrapped as
InternalServerError. -/
def ProductRepository.restore (store : List IProduct) (id : Nat) :
    Except RepoError (Option IProduct) × List IProduct :=
  match ProductRepository.restoreTry store id with
  | (.error _, s) => (.error (.internal "Urun geri getirilemedi, lutfen daha sonra tekrar deneyin"), s)
  | ok => ok

/-- ProductRepository.findAll. -/
def ProductRepository.findAll (store : List IProduct) (filters : ProductFilters) :
    Except RepoError (PaginatedData IProduct) :=
  let query := ProductRepository.generateQuery filters
  let offset := (filters.pageNumber - 1) * filters.entryPerPage
  let totalProducts := (store.filter (matchesProductQuery query)).length
  let products :=
    ((insSortBy (productSortLe filters) (store.filter (matchesProductQuery query))).drop
        offset).take filters.entryPerPage
  .ok
    { data := products,
      hasNext := decide (offset + products.length < totalProducts),
      hasPrev := decide (filters.pageNumber > 1),
      shownEntryCount := products.length }

/-! ## Category entity (unnamed/part_013, the category repository file) -/

/-- ICategory record, restricted to the fields the core reads; `parent`
is the nullable self-reference. -/
structure ICategory where
  id : Nat
  name : String
  slug : String
  parent : Option Nat
  createdAt : Nat
  updatedAt : Nat
  deletedAt : Option Nat
deriving Repr, DecidableEq

/-- Sortable category fields. -/
inductive CategorySortField where
  | name
  | createdAt
deriving Repr, DecidableEq

/-- CategoryFilters of src/src/lib/types/repositories/category.ts; the
`parent` filter is `string | null | undefined`, rendered as
`Option (Option Nat)` with `none` for undefined and `some none` for null. -/
structure CategoryFilters where
  name : Option String := none
  parent : Option (Option Nat) := none
  sortBy : Option CategorySortField := none
  sortOrder : Option SortDirection := none
  pageNumber : Nat
  entryPerPage : Nat
  includeDeleted : JSBool := .jundefined
deriving Repr, DecidableEq

/-- CategoryQuery. -/
structure CategoryQuery where
  name : Option String := none
  parent : Option (Option Nat) := none
  deletedAt : Option (Option Nat) := none
deriving Repr, DecidableEq

/-- generateQuery of the category repository file: the truthy branch
keeps a present non-null parent, the `=== null` branch keeps the null
restriction, undefined adds nothing. -/
def CategoryRepository.generateQuery (filters : CategoryFilters) : CategoryQuery :=
  { name := if strTruthy filters.name then filters.name else none,
    parent :=
      match filters.parent with
      | some (some pid) => some (some pid)
      | some none => some none
      | none => none,
    deletedAt := if filters.includeDeleted != .jtrue then some none else none }

/-- Store evaluation of a CategoryQuery against one document. -/
def matchesCategoryQuery (q : CategoryQuery) (c : ICategory) : Bool :=
  (match q.name with
   | some pat => iRegexTest pat c.name
   | none => true) &&
  (match q.parent with
   | some v => c.parent == v
   | none => true) &&
  (match q.deletedAt with
   | some v => c.deletedAt == v
   | none => true)

/-- Comparison on one category sort field. -/
def categoryFieldLe (field : CategorySortField) (a b : ICategory) : Bool :=
  match field with
  | .name => decide (a.name ≤ b.name)
  | .createdAt => decide (a.createdAt ≤ b.createdAt)

/-- Sort relation from the category filters. -/
def categorySortLe (filters : CategoryFilters) (a b : ICategory) : Bool :=
  if filters.sortOrder == some .asc then categoryFieldLe (filters.sortBy.getD .createdAt) a b
  else categoryFieldLe (filters.sortBy.getD .createdAt) b a

/-- CategoryRepository.create: duplicate-key (code 11000) becomes
ConflictError, anything else InternalServerError. -/
def CategoryRepository.create (res : StoreWrite ICategory) : Except RepoError ICategory :=
  match res with
  | .ok c => .ok c
  | .errCode code =>
    if code == 11000 then
      .error (.conflict "Kategori cakismadan oturu olusturulamadi, baska bir isim deneyin")
    else
      .error (.internal "Kategori olusturulamadi")

/-- CategoryRepository.delete. -/
def CategoryRepository.delete (store : List ICategory) (id : Nat) (now : Nat) :
    Except RepoError (Option ICategory) × List ICategory :=
  let r := updateFirstBy (·.id) id (fun c => { c with deletedAt := some now }) store
  (.ok r.1, r.2)

/-- Conflict clause of the category restore scan. The source query object
is `{_id: {$ne: id}, deletedAt: null, or: [{name: ...}, {slug: ...}]}`:
the key is the plain field path `or`, not the `$or` operator, and no
category document carries a field named `or`, so the clause matches no
document and the scan can never find a collider. -/
def categoryFieldOrClause (_c : ICategory) : Bool :=
  false

/-- Body of CategoryRepository.restore: lookup requiring a tombstone, the
(ineffective) conflict scan, then clear the tombstone. -/
def CategoryRepository.restoreTry (store : List ICategory) (id : Nat) :
    Except RepoError (Option ICategory) × List ICategory :=
  match store.find? (fun c => c.id == id && c.deletedAt != none) with
  | none => (.ok none, store)
  | some _ =>
    match store.find? (fun c =>
        c.id != id && c.deletedAt == none && categoryFieldOrClause c) with
    | some _ =>
      (.error (.conflict "Aktif kategoriler arasinda ayni isme veya sluga sahip baska bir kategori var"), store)
    | none =>
      let r := updateFirstBy (·.id) id (fun c => { c with deletedAt := none }) store
      (.ok r.1, r.2)

/-- CategoryRepository.restore: like the product repository, its catch
block has no ConflictError re-throw. -/
def CategoryRepository.restore (store : List ICategory) (id : Nat) :
    Except RepoError (Option ICategory) × List ICategory :=
  match CategoryRepository.restoreTry store id with
  | (.error _, s) => (.error (.internal "Kategori geri getirilemedi, lutfen daha sonra tekrar deneyin"), s)
  | ok => ok

/-- CategoryRepository.findAll. -/
def CategoryRepository.findAll (store : List ICategory) (filters : CategoryFilters) :
    Except RepoError (PaginatedData ICategory) :=
  let offset := (filters.pageNumber - 1) * filters.entryPerPage
  let query := CategoryRepository.generateQuery filters
  let totalCategories := (store.filter (matchesCategoryQuery query)).length
  let categories :=
    ((insSortBy (categorySortLe filters) (store.filter (matchesCategoryQuery query))).drop
        offset).take filters.entryPerPage
  .ok
    { data := categories,
      hasNext := decide (offset + categories.length < totalCategories),
      hasPrev := decide (filters.pageNumber > 1),
      shownEntryCount := categories.length }

/-! ## Service layer (src/src/services, unnamed/part_002) -/

/-- ServiceUtils.ensureAdmin: UnauthorizedError for non-admin actors. -/
def ServiceUtils.ensureAdmin (actingUser : ActingUser) : Except RepoError Unit :=
  if !actingUser.isAdmin then
    .error (.unauthorized "Bu islem icin gerekli yetkilere sahip degilsiniz")
  else .ok ()

/-- CategoryService.deleteCategory: admin gate, then a findAll over the
products (includeDeleted true, first page of 10) restricted to this
category id; a non-empty result is a ConflictError raised before any
write; otherwise the category is tombstoned, `null` becoming
NotFoundError. -/
def CategoryService.deleteCategory (cats : List ICategory) (prods : List IProduct)
    (id : Nat) (actingUser : ActingUser) (now : Nat) :
    Except RepoError ICategory × List ICategory :=
  match ServiceUtils.ensureAdmin actingUser with
  | .error e => (.error e, cats)
  | .ok _ =>
    match ProductRepository.findAll prods
        { pageNumber := 1, entryPerPage := 10, categoryId := some id,
          includeDeleted := .jtrue } with
    | .error e => (.error e, cats)
    | .ok productsInCategory =>
      if productsInCategory.data.length > 0 then
        (.error (.conflict "Bu kategoriye atanmis urunler oldugu icin silinemez"), cats)
      else
        match CategoryRepository.delete cats id now with
        | (.ok none, cats2) => (.error (.notFound "Kategori bulunamadi"), cats2)
        | (.ok (some category), cats2) => (.ok category, cats2)
        | (.error e, cats2) => (.error e, cats2)

/-- Final state of the caller's filter object after
CategoryService.findAllCategories, which assigns to it in place: first
`includeDeleted = false` for non-admins, then `includeDeleted = true`
for admins when it was undefined. -/
def CategoryService.findAllCategoriesFilters (filters : CategoryFilters)
    (actingUser : ActingUser) : CategoryFilters :=
  let filters1 :=
    if !actingUser.isAdmin then { filters with includeDeleted := .jfalse } else filters
  if actingUser.isAdmin && filters1.includeDeleted == .jundefined then
    { filters1 with includeDeleted := .jtrue }
  else filters1

/-- CategoryService.findAllCategories: the repository call on the mutated
filters, returned together with the final state of the caller's filter
object. -/
def CategoryService.findAllCategories (cats : List ICategory)
    (filters : CategoryFilters) (actingUser : ActingUser) :
    Except RepoError (PaginatedData ICategory) × CategoryFilters :=
  let fs := CategoryService.findAllCategoriesFilters filters actingUser
  (CategoryRepository.findAll cats fs, fs)

/-- Final state of the caller's filter object after
ProductService.findAllProducts (admins with an undefined includeDeleted
get true assigned in place). -/
def ProductService.findAllProductsFilters (filters : ProductFilters)
    (actingUser : ActingUser) : ProductFilters :=
  if actingUser.isAdmin && filters.includeDeleted == .jundefined then
    { filters with includeDeleted := .jtrue }
  else filters

/-- ProductService.findAllProducts. -/
def ProductService.findAllProducts (store : List IProduct)
    (filters : ProductFilters) (actingUser : ActingUser) :
    Except RepoError (PaginatedData IProduct) × ProductFilters :=
  let fs := ProductService.findAllProductsFilters filters actingUser
  (ProductRepository.findAll store fs, fs)

/-- Final state of the caller's filter object after the admin gate of
UserService.findAllUsers (undefined includeDeleted gets true assigned
in place). -/
def UserService.findAllUsersFilters (filters : UserFilters) : UserFilters :=
  if filters.includeDeleted == .jundefined then
    { filters with includeDeleted := .jtrue }
  else filters

/-- UserService.findAllUsers: admin-only; on the admin path the filter
object is defaulted in place before the repository call. -/
def UserService.findAllUsers (store : List IUser) (filters : UserFilters)
    (actingUser : ActingUser) :
    Except RepoError (PaginatedData IUser) × UserFilters :=
  match ServiceUtils.ensureAdmin actingUser with
  | .error e => (.error e, filters)
  | .ok _ =>
    let fs := UserService.findAllUsersFilters filters
    (UserRepository.findAll store fs, fs)

/-! ## General lemmas about the store model -/

theorem length_insertBy {α : Type} (le : α → α → Bool) (a : α) (l : List α) :
    (insertBy le a l).length = l.length + 1 := by
  induction l with
  | nil => rfl
  | cons b l ih =>
    simp only [insertBy]
    split
    · simp
    · simp [ih]

theorem length_insSortBy {α : Type} (le : α → α → Bool) (l : List α) :
    (insSortBy le l).length = l.length := by
  induction l with
  | nil => rfl
  | cons a l ih => simp [insSortBy, length_insertBy, ih]

theorem mem_insertBy {α : Type} (le : α → α → Bool) (a x : α) (l : List α) :
    x ∈ insertBy le a l ↔ x = a ∨ x ∈ l := by
  induction l with
  | nil => simp [insertBy]
  | cons b l ih =>
    simp only [insertBy]
    split
    · simp [or_comm, or_assoc, List.mem_cons]
    · simp only [List.mem_cons, ih]
      tauto

theorem mem_insSortBy {α : Type} (le : α → α → Bool) (x : α) (l : List α) :
    x ∈ insSortBy le l ↔ x ∈ l := by
  induction l with
  | nil => simp [insSortBy]
  | cons a l ih => simp [insSortBy, mem_insertBy, ih]

theorem find?_eq_some_of_unique {α : Type} {p : α → Bool} {l : List α} {b : α}
    (hb : b ∈ l) (hpb : p b = true) (huniq : ∀ x ∈ l, p x = true → x = b) :
    l.find? p = some b := by
  induction l with
  | nil => cases hb
  | cons a l ih =>
    by_cases hpa : p a = true
    · have hab : a = b := huniq a (List.mem_cons_self a l) hpa
      rw [List.find?_cons_of_pos l hpa, hab]
    · rw [List.find?_cons_of_neg l hpa]
      have hbl : b ∈ l := by
        rcases List.mem_cons.mp hb with h | h
        · exact absurd (h ▸ hpb) hpa
        · exact h
      exact ih hbl (fun x hx hpx => huniq x (List.mem_cons_of_mem a hx) hpx)

theorem updateFirstBy_fst {α : Type} (idOf : α → Nat) (id : Nat) (f : α → α)
    (l : List α) :
    (updateFirstBy idOf id f l).1 = (l.find? (fun x => idOf x == id)).map f := by
  induction l with
  | nil => rfl
  | cons a l ih =>
    by_cases ha : (idOf a == id) = true
    · rw [@List.find?_cons_of_pos _ (fun x => idOf x == id) a l ha]
      simp [updateFirstBy, ha]
    · rw [@List.find?_cons_of_neg _ (fun x => idOf x == id) a l ha]
      have hane : (idOf a == id) = false := by simpa using ha
      simp [updateFirstBy, hane, ih]

theorem updateFirstBy_of_unique {α : Type} (idOf : α → Nat) (f : α → α)
    {id : Nat} {b : α} {l : List α}
    (hb : b ∈ l) (hid : idOf b = id)
    (huniq : ∀ x ∈ l, idOf x = id → x = b) (hnd : l.Nodup) :
    updateFirstBy idOf id f l
      = (some (f b), l.map (fun x => if idOf x == id then f x else x)) := by
  induction l with
  | nil => cases hb
  | cons a l ih =>
    by_cases ha : idOf a = id
    · have hab : a = b := huniq a (List.mem_cons_self a l) ha
      subst hab
      have hl : ∀ x ∈ l, idOf x ≠ id := by
        intro x hx hxe
        have hxa : x = a := huniq x (List.mem_cons_of_mem a hx) hxe
        exact (List.nodup_cons.mp hnd).1 (hxa ▸ hx)
      have hmap : l.map (fun x => if idOf x = id then f x else x) = l := by
        have h1 : ∀ x ∈ l, (if idOf x = id then f x else x) = x :=
          fun x hx => if_neg (hl x hx)
        have h2 : l.map (fun x => if idOf x = id then f x else x)
            = l.map (fun x => x) := List.map_congr_left h1
        simpa using h2
      simp [updateFirstBy, ha, hmap]
    · have hba : b ∈ l := by
        rcases List.mem_cons.mp hb with h | h
        · exact absurd (h ▸ hid) ha
        · exact h
      have ih' := ih hba (fun x hx hxe => huniq x (List.mem_cons_of_mem a hx) hxe)
        (List.nodup_cons.mp hnd).2
      simp [updateFirstBy, ha, ih']

/-! ## Claim theorems -/

/-- C1 (code evaluation at the failing inputs): with an active and a
tombstoned record sharing every uniqueness-bearing field value, restore
of the tombstoned record behaves per kind as follows. User: fails with
Conflict and mutates nothing (as the claim states). Product: the
conflict is detected but surfaces as an internal failure, not Conflict,
because the catch block lacks the ConflictError re-throw. Category: the
conflict scan matches nothing (its query spells the plain field `or`
instead of the `$or` operator), so the restore succeeds and reactivates
the record, leaving two active categories with the same name and slug. -/
theorem c1_restore_conflict_eval :
    UserRepository.restore
        [⟨2, "Ada", "L", "x@y.com", 0, 0, none⟩,
         ⟨1, "Bob", "M", "x@y.com", 0, 0, some 3⟩] 1
      = (.error (.conflict "Bu e-posta adresine sahip baska bir kullanici var"),
         [⟨2, "Ada", "L", "x@y.com", 0, 0, none⟩,
          ⟨1, "Bob", "M", "x@y.com", 0, 0, some 3⟩])
    ∧ ProductRepository.restore
        [⟨2, "Chair", "chair", 5, 1, 10, 0, 0, none⟩,
         ⟨1, "Chair", "chair", 5, 1, 15, 0, 0, some 3⟩] 1
      = (.error (.internal "Urun geri getirilemedi, lutfen daha sonra tekrar deneyin"),
         [⟨2, "Chair", "chair", 5, 1, 10, 0, 0, none⟩,
          ⟨1, "Chair", "chair", 5, 1, 15, 0, 0, some 3⟩])
    ∧ CategoryRepository.restore
        [⟨2, "Chairs", "chairs", none, 0, 0, none⟩,
         ⟨1, "Chairs", "chairs", none, 0, 0, some 3⟩] 1
      = (.ok (some ⟨1, "Chairs", "chairs", none, 0, 0, none⟩),
         [⟨2, "Chairs", "chairs", none, 0, 0, none⟩,
          ⟨1, "Chairs", "chairs", none, 0, 0, none⟩]) := by
  refine ⟨?_, ?_, ?_⟩ <;> rfl

/-- C2 (code evaluation at the failing input): a duplicate-key store
error (code 11000) during create is translated to Conflict by the user
and category repositories, but the product repository only logs the
duplicate-key case and raises the generic internal failure; other codes
surface as internal everywhere. -/
theorem c2_create_duplicate_key_eval :
    ProductRepository.create (StoreWrite.errCode 11000)
      = .error (.internal "Urun olusturulamadi")
    ∧ UserRepository.create (StoreWrite.errCode 11000)
      = .error (.conflict "A user with this email already exists")
    ∧ CategoryRepository.create (StoreWrite.errCode 11000)
      = .error (.conflict "Kategori cakismadan oturu olusturulamadi, baska bir isim deneyin")
    ∧ UserRepository.create (StoreWrite.errCode 42)
      = .error (.internal "Kullanici olusturulamadi")
    ∧ CategoryRepository.create (StoreWrite.errCode 42)
      = .error (.internal "Kategori olusturulamadi") := by
  exact ⟨rfl, rfl, rfl, rfl, rfl⟩

/-- C6: for every filter object of every entity kind, the query built by
generateQuery carries the `deletedAt = null` restriction exactly when
includeDeleted is anything other than the boolean true (false, null or
undefined), and carries no deletedAt restriction exactly when
includeDeleted is exactly true. -/
theorem c6_generateQuery_tombstone (pf : ProductFilters) (uf : UserFilters)
    (cf : CategoryFilters) :
    ((ProductRepository.generateQuery pf).deletedAt = some none
      ↔ pf.includeDeleted ≠ .jtrue)
    ∧ ((ProductRepository.generateQuery pf).deletedAt = none
      ↔ pf.includeDeleted = .jtrue)
    ∧ ((UserRepository.generateQuery uf).deletedAt = some none
      ↔ uf.includeDeleted ≠ .jtrue)
    ∧ ((UserRepository.generateQuery uf).deletedAt = none
      ↔ uf.includeDeleted = .jtrue)
    ∧ ((CategoryRepository.generateQuery cf).deletedAt = some none
      ↔ cf.includeDeleted ≠ .jtrue)
    ∧ ((CategoryRepository.generateQuery cf).deletedAt = none
      ↔ cf.includeDeleted = .jtrue) := by
  refine ⟨?_, ?_, ?_, ?_, ?_, ?_⟩
  · cases h : pf.includeDeleted <;> simp [ProductRepository.generateQuery, h]
  · cases h : pf.includeDeleted <;> simp [ProductRepository.generateQuery, h]
  · cases h : uf.includeDeleted <;> simp [UserRepository.generateQuery, h]
  · cases h : uf.includeDeleted <;> simp [UserRepository.generateQuery, h]
  · cases h : cf.includeDeleted <;> simp [CategoryRepository.generateQuery, h]
  · cases h : cf.includeDeleted <;> simp [CategoryRepository.generateQuery, h]

/-- C8 counterexample: soft delete returns the record with the tombstone
already applied (`new: true`), not the record as it stood before the
tombstone, refuting the claim at a one-record store. -/
theorem c8_delete_prior_state_counterexample :
    UserRepository.delete [⟨1, "Ann", "K", "a@b.com", 0, 0, none⟩] 1 5
      = (.ok (some ⟨1, "Ann", "K", "a@b.com", 0, 0, some 5⟩),
         [⟨1, "Ann", "K", "a@b.com", 0, 0, some 5⟩])
    ∧ (⟨1, "Ann", "K", "a@b.com", 0, 0, some 5⟩ : IUser)
      ≠ ⟨1, "Ann", "K", "a@b.com", 0, 0, none⟩ := by
  exact ⟨rfl, by decide⟩

/-- C8 as amended: for every entity kind, SoftDelete(id) never fails due
to uniqueness (it always yields an ok outcome), sets deletedAt to the
current time on the first record with that id, and returns the record in
its post-tombstone state (deletedAt = now). -/
theorem c8_delete_tombstones_and_returns_updated (us : List IUser)
    (ps : List IProduct) (cs : List ICategory) (id now : Nat) :
    (UserRepository.delete us id now).1
      = .ok ((us.find? (fun r => r.id == id)).map
          (fun r => { r with deletedAt := some now }))
    ∧ (ProductRepository.delete ps id now).1
      = .ok ((ps.find? (fun r => r.id == id)).map
          (fun r => { r with deletedAt := some now }))
    ∧ (CategoryRepository.delete cs id now).1
      = .ok ((cs.find? (fun r => r.id == id)).map
          (fun r => { r with deletedAt := some now })) := by
  refine ⟨?_, ?_, ?_⟩
  · simp [UserRepository.delete, updateFirstBy_fst]
  · simp [ProductRepository.delete, updateFirstBy_fst]
  · simp [CategoryRepository.delete, updateFirstBy_fst]

/-- C9 counterexample: the category service mutates the caller-owned
filter object in place; a non-admin caller passing includeDeleted = true
gets their filter object overwritten to includeDeleted = false. -/
theorem c9_filter_mutation_counterexample :
    (CategoryService.findAllCategories []
        { pageNumber := 1, entryPerPage := 10, includeDeleted := .jtrue }
        ⟨7, false⟩).2
      ≠ { pageNumber := 1, entryPerPage := 10, includeDeleted := .jtrue } := by
  decide

/-- C9 as amended: the list services may reassign the caller-owned
filter object's includeDeleted field in place (visibility defaulting),
but they mutate nothing else: every other filter field is unchanged
after the call. -/
theorem c9_filter_mutation_frame (cs : List ICategory) (ps : List IProduct)
    (us : List IUser) (cf : CategoryFilters) (pf : ProductFilters)
    (uf : UserFilters) (actingUser : ActingUser) :
    ((CategoryService.findAllCategories cs cf actingUser).2.name = cf.name
      ∧ (CategoryService.findAllCategories cs cf actingUser).2.parent = cf.parent
      ∧ (CategoryService.findAllCategories cs cf actingUser).2.sortBy = cf.sortBy
      ∧ (CategoryService.findAllCategories cs cf actingUser).2.sortOrder = cf.sortOrder
      ∧ (CategoryService.findAllCategories cs cf actingUser).2.pageNumber = cf.pageNumber
      ∧ (CategoryService.findAllCategories cs cf actingUser).2.entryPerPage = cf.entryPerPage)
    ∧ ((ProductService.findAllProducts ps pf actingUser).2.name = pf.name
      ∧ (ProductService.findAllProducts ps pf actingUser).2.categoryId = pf.categoryId
      ∧ (ProductService.findAllProducts ps pf actingUser).2.inStock = pf.inStock
      ∧ (ProductService.findAllProducts ps pf actingUser).2.minPrice = pf.minPrice
      ∧ (ProductService.findAllProducts ps pf actingUser).2.maxPrice = pf.maxPrice
      ∧ (ProductService.findAllProducts ps pf actingUser).2.sortBy = pf.sortBy
      ∧ (ProductService.findAllProducts ps pf actingUser).2.sortOrder = pf.sortOrder
      ∧ (ProductService.findAllProducts ps pf actingUser).2.pageNumber = pf.pageNumber
      ∧ (ProductService.findAllProducts ps pf actingUser).2.entryPerPage = pf.entryPerPage)
    ∧ ((UserService.findAllUsers us uf actingUser).2.firstName = uf.firstName
      ∧ (UserService.findAllUsers us uf actingUser).2.lastName = uf.lastName
      ∧ (UserService.findAllUsers us uf actingUser).2.email = uf.email
      ∧ (UserService.findAllUsers us uf actingUser).2.sortBy = uf.sortBy
      ∧ (UserService.findAllUsers us uf actingUser).2.sortOrder = uf.sortOrder
      ∧ (UserService.findAllUsers us uf actingUser).2.pageNumber = uf.pageNumber
      ∧ (UserService.findAllUsers us uf actingUser).2.entryPerPage = uf.entryPerPage) := by
  cases hA : actingUser.isAdmin <;>
  cases hCf : cf.includeDeleted <;>
  cases hPf : pf.includeDeleted <;>
  cases hUf : uf.includeDeleted <;>
  simp [CategoryService.findAllCategories, CategoryService.findAllCategoriesFilters,
    ProductService.findAllProducts, ProductService.findAllProductsFilters,
    UserService.findAllUsers, UserService.findAllUsersFilters,
    ServiceUtils.ensureAdmin, hA, hCf, hPf, hUf]

/-- C3: for every id with no tombstoned record under it (absent id or an
already-active record), restore at the repository level returns null as
a no-op for all three kinds: no error is raised and no record mutated. -/
theorem c3_restore_noop (us : List IUser) (ps : List IProduct)
    (cs : List ICategory) (id : Nat)
    (hu : ∀ u ∈ us, u.id = id → u.deletedAt = none)
    (hp : ∀ p ∈ ps, p.id = id → p.deletedAt = none)
    (hc : ∀ c ∈ cs, c.id = id → c.deletedAt = none) :
    UserRepository.restore us id = (.ok none, us)
    ∧ ProductRepository.restore ps id = (.ok none, ps)
    ∧ CategoryRepository.restore cs id = (.ok none, cs) := by
  have hu' : us.find? (fun u => u.id == id && u.deletedAt != none) = none := by
    rw [List.find?_eq_none]
    intro u hmem
    simp only [Bool.and_eq_true, beq_iff_eq, bne_iff_ne, ne_eq, not_and, not_not]
    exact hu u hmem
  have hp' : ps.find? (fun p => p.id == id && p.deletedAt != none) = none := by
    rw [List.find?_eq_none]
    intro p hmem
    simp only [Bool.and_eq_true, beq_iff_eq, bne_iff_ne, ne_eq, not_and, not_not]
    exact hp p hmem
  have hc' : cs.find? (fun c => c.id == id && c.deletedAt != none) = none := by
    rw [List.find?_eq_none]
    intro c hmem
    simp only [Bool.and_eq_true, beq_iff_eq, bne_iff_ne, ne_eq, not_and, not_not]
    exact hc c hmem
  refine ⟨?_, ?_, ?_⟩
  · simp [UserRepository.restore, UserRepository.restoreTry, hu']
  · simp [ProductRepository.restore, ProductRepository.restoreTry, hp']
  · simp [CategoryRepository.restore, CategoryRepository.restoreTry, hc']

/-- C3 witness: the no-op holds at an already-active user (id 1), an
absent product id and an absent (tombstoned under another id) category. -/
theorem c3_restore_noop_witness :
    UserRepository.restore [⟨1, "Ann", "K", "a@b.com", 0, 0, none⟩] 1
      = (.ok none, [⟨1, "Ann", "K", "a@b.com", 0, 0, none⟩])
    ∧ ProductRepository.restore [] 1 = (.ok none, [])
    ∧ CategoryRepository.restore [⟨2, "C", "c", none, 0, 0, some 4⟩] 1
      = (.ok none, [⟨2, "C", "c", none, 0, 0, some 4⟩]) :=
  c3_restore_noop [⟨1, "Ann", "K", "a@b.com", 0, 0, none⟩] []
    [⟨2, "C", "c", none, 0, 0, some 4⟩] 1
    (by decide) (by decide) (by decide)

/-- C5: for every category id, if at least one product (tombstoned or
not) references it as its category, then deleteCategory (by an admin)
fails with Conflict and leaves the category collection unchanged; the
referencing-product check runs before any write. -/
theorem c5_deleteCategory_guard (cats : List ICategory) (prods : List IProduct)
    (id : Nat) (actingUser : ActingUser) (now : Nat)
    (hadmin : actingUser.isAdmin = true)
    (p : IProduct) (hp : p ∈ prods) (hcat : p.categoryId = id) :
    CategoryService.deleteCategory cats prods id actingUser now
      = (.error (.conflict "Bu kategoriye atanmis urunler oldugu icin silinemez"),
         cats) := by
  have h1 : ServiceUtils.ensureAdmin actingUser = .ok () := by
    simp [ServiceUtils.ensureAdmin, hadmin]
  have hq : matchesProductQuery
      (ProductRepository.generateQuery
        { pageNumber := 1, entryPerPage := 10, categoryId := some id,
          includeDeleted := .jtrue }) p = true := by
    simp [ProductRepository.generateQuery, matchesProductQuery, strTruthy,
      natTruthy, hcat]
  have hpos : 0 < (prods.filter (matchesProductQuery
      (ProductRepository.generateQuery
        { pageNumber := 1, entryPerPage := 10, categoryId := some id,
          includeDeleted := .jtrue }))).length :=
    List.length_pos_of_mem (List.mem_filter.mpr ⟨hp, hq⟩)
  simp only [CategoryService.deleteCategory, h1, ProductRepository.findAll]
  split
  · rfl
  · rename_i hfalse
    rw [List.length_take, List.length_drop, length_insSortBy] at hfalse
    omega

/-- C5 witness: a tombstoned product referencing the category is enough
to block the delete and leave the category collection unchanged. -/
theorem c5_deleteCategory_guard_witness :
    CategoryService.deleteCategory [⟨1, "Tools", "tools", none, 0, 0, none⟩]
        [⟨5, "Hammer", "hammer", 1, 3, 20, 0, 0, some 7⟩] 1 ⟨9, true⟩ 11
      = (.error (.conflict "Bu kategoriye atanmis urunler oldugu icin silinemez"),
         [⟨1, "Tools", "tools", none, 0, 0, none⟩]) :=
  c5_deleteCategory_guard [⟨1, "Tools", "tools", none, 0, 0, none⟩]
    [⟨5, "Hammer", "hammer", 1, 3, 20, 0, 0, some 7⟩] 1 ⟨9, true⟩ 11 rfl
    ⟨5, "Hammer", "hammer", 1, 3, 20, 0, 0, some 7⟩ (by decide) rfl

/-- C7: for every findAll call with pageNumber at least 1 and an allowed
entryPerPage, the page is never an error (an empty result set included),
its record count is the query total minus the offset
(pageNumber - 1) * entryPerPage capped at entryPerPage, and it satisfies
hasNext = (offset + returnedCount < totalCount),
hasPrev = (pageNumber > 1) and shownEntryCount = returnedCount, for all
three entity kinds. -/
theorem c7_findAll_pagination (us : List IUser) (ps : List IProduct)
    (cs : List ICategory) (uf : UserFilters) (pf : ProductFilters)
    (cf : CategoryFilters)
    (hu1 : 1 ≤ uf.pageNumber) (hu2 : uf.entryPerPage ∈ ([10, 25, 50, 100] : List Nat))
    (hp1 : 1 ≤ pf.pageNumber) (hp2 : pf.entryPerPage ∈ ([10, 25, 50, 100] : List Nat))
    (hc1 : 1 ≤ cf.pageNumber) (hc2 : cf.entryPerPage ∈ ([10, 20, 50] : List Nat)) :
    ((∀ e, UserRepository.findAll us uf ≠ .error e)
      ∧ ∀ page, UserRepository.findAll us uf = .ok page →
          page.data.length = min uf.entryPerPage
              ((us.filter (matchesUserQuery (UserRepository.generateQuery uf))).length
                - (uf.pageNumber - 1) * uf.entryPerPage)
          ∧ page.shownEntryCount = page.data.length
          ∧ page.hasNext = decide
              ((uf.pageNumber - 1) * uf.entryPerPage + page.data.length
                < (us.filter (matchesUserQuery (UserRepository.generateQuery uf))).length)
          ∧ page.hasPrev = decide (1 < uf.pageNumber))
    ∧ ((∀ e, ProductRepository.findAll ps pf ≠ .error e)
      ∧ ∀ page, ProductRepository.findAll ps pf = .ok page →
          page.data.length = min pf.entryPerPage
              ((ps.filter (matchesProductQuery (ProductRepository.generateQuery pf))).length
                - (pf.pageNumber - 1) * pf.entryPerPage)
          ∧ page.shownEntryCount = page.data.length
          ∧ page.hasNext = decide
              ((pf.pageNumber - 1) * pf.entryPerPage + page.data.length
                < (ps.filter (matchesProductQuery (ProductRepository.generateQuery pf))).length)
          ∧ page.hasPrev = decide (1 < pf.pageNumber))
    ∧ ((∀ e, CategoryRepository.findAll cs cf ≠ .error e)
      ∧ ∀ page, CategoryRepository.findAll cs cf = .ok page →
          page.data.length = min cf.entryPerPage
              ((cs.filter (matchesCategoryQuery (CategoryRepository.generateQuery cf))).length
                - (cf.pageNumber - 1) * cf.entryPerPage)
          ∧ page.shownEntryCount = page.data.length
          ∧ page.hasNext = decide
              ((cf.pageNumber - 1) * cf.entryPerPage + page.data.length
                < (cs.filter (matchesCategoryQuery (CategoryRepository.generateQuery cf))).length)
          ∧ page.hasPrev = decide (1 < cf.pageNumber)) := by
  refine ⟨⟨?_, ?_⟩, ⟨?_, ?_⟩, ⟨?_, ?_⟩⟩
  · intro e h
    simp [UserRepository.findAll] at h
  · intro page hpage
    simp only [UserRepository.findAll, Except.ok.injEq] at hpage
    subst hpage
    refine ⟨?_, rfl, rfl, rfl⟩
    simp [List.length_take, List.length_drop, length_insSortBy]
  · intro e h
    simp [ProductRepository.findAll] at h
  · intro page hpage
    simp only [ProductRepository.findAll, Except.ok.injEq] at hpage
    subst hpage
    refine ⟨?_, rfl, rfl, rfl⟩
    simp [List.length_take, List.length_drop, length_insSortBy]
  · intro e h
    simp [CategoryRepository.findAll] at h
  · intro page hpage
    simp only [CategoryRepository.findAll, Except.ok.injEq] at hpage
    subst hpage
    refine ⟨?_, rfl, rfl, rfl⟩
    simp [List.length_take, List.length_drop, length_insSortBy]

/-- C7 witness: concrete empty stores with legal page settings; the empty
result set is a valid ok page (never an error) and the second category
page reports hasPrev consistently. -/
theorem c7_findAll_pagination_witness :
    UserRepository.findAll [] { pageNumber := 1, entryPerPage := 10 }
        ≠ .error (.internal "boom")
    ∧ ProductRepository.findAll [] { pageNumber := 1, entryPerPage := 25 }
        ≠ .error (.internal "boom")
    ∧ CategoryRepository.findAll [] { pageNumber := 2, entryPerPage := 10 }
        ≠ .error (.internal "boom")
    ∧ (⟨[], false, true, 0⟩ : PaginatedData ICategory).shownEntryCount
        = (⟨[], false, true, 0⟩ : PaginatedData ICategory).data.length := by
  have h := c7_findAll_pagination [] [] []
    { pageNumber := 1, entryPerPage := 10 } { pageNumber := 1, entryPerPage := 25 }
    { pageNumber := 2, entryPerPage := 10 }
    (by decide) (by decide) (by decide) (by decide) (by decide) (by decide)
  exact ⟨h.1.1 (.internal "boom"), h.2.1.1 (.internal "boom"),
    h.2.2.1 (.internal "boom"), (h.2.2.2 ⟨[], false, true, 0⟩ rfl).2.1⟩

/-- C4: for every tombstoned user b in a store with distinct ids whose
email is held by no other active user, restore succeeds: the tombstone
is cleared, the reactivated record is returned, and a findByEmail with
default visibility (tombstoned records excluded) finds it. -/
theorem c4_user_restore_success (store : List IUser) (b : IUser)
    (hnd : (store.map (fun u => u.id)).Nodup)
    (hb : b ∈ store) (hdel : b.deletedAt ≠ none)
    (hnoc : ∀ u ∈ store, u.id ≠ b.id → u.deletedAt = none → u.email ≠ b.email) :
    UserRepository.restore store b.id
      = (.ok (some { b with deletedAt := none }),
         store.map (fun u => if u.id == b.id then { u with deletedAt := none } else u))
    ∧ UserRepository.findByEmail
        (store.map (fun u => if u.id == b.id then { u with deletedAt := none } else u))
        b.email .jfalse
      = .ok (some { b with deletedAt := none }) := by
  have hinj : ∀ x ∈ store, x.id = b.id → x = b := by
    intro x hx hxe
    exact List.inj_on_of_nodup_map hnd hx hb hxe
  have hlnd : store.Nodup := List.Nodup.of_map _ hnd
  have hfind1 : store.find? (fun u => u.id == b.id && u.deletedAt != none) = some b := by
    apply find?_eq_some_of_unique hb
    · simp [hdel]
    · intro x hx hpx
      have hxe : x.id = b.id := by
        simp only [Bool.and_eq_true, beq_iff_eq] at hpx
        exact hpx.1
      exact hinj x hx hxe
  have hfind2 : store.find? (fun u =>
      u.id != b.id && u.deletedAt == none && u.email == b.email) = none := by
    rw [List.find?_eq_none]
    intro u hu
    simp only [Bool.and_eq_true, bne_iff_ne, beq_iff_eq, ne_eq, not_and, and_imp]
    exact fun h1 h2 => hnoc u hu h1 h2
  have hupd : updateFirstBy (fun u : IUser => u.id) b.id
      (fun u => { u with deletedAt := none }) store
      = (some { b with deletedAt := none },
         store.map (fun x => if x.id == b.id then { x with deletedAt := none } else x)) :=
    updateFirstBy_of_unique _ _ hb rfl hinj hlnd
  have hb' : ({ b with deletedAt := none } : IUser)
      ∈ store.map (fun u => if u.id == b.id then { u with deletedAt := none } else u) :=
    List.mem_map.mpr ⟨b, hb, by simp⟩
  refine ⟨?_, ?_⟩
  · simp only [UserRepository.restore, UserRepository.restoreTry, hfind1, hfind2, hupd]
  · simp only [UserRepository.findByEmail, Except.ok.injEq]
    apply find?_eq_some_of_unique hb'
    · simp [JSBool.truthy]
    · intro y hy hpy
      rcases List.mem_map.mp hy with ⟨x, hx, hgx⟩
      by_cases hxid : x.id = b.id
      · have hxb : x = b := hinj x hx hxid
        subst hxb
        rw [← hgx]
        simp
      · have hyx : y = x := by
          rw [← hgx]
          simp [hxid]
        rw [hyx] at hpy
        simp only [JSBool.truthy, Bool.not_false, if_true, Bool.and_eq_true,
          beq_iff_eq] at hpy
        exact absurd hpy.1 (hnoc x hx hxid hpy.2)

/-- C4 witness: a single tombstoned user restores successfully and is
found again by email under default visibility. -/
theorem c4_user_restore_success_witness :
    UserRepository.restore [⟨1, "Eve", "P", "x@y.com", 0, 0, some 3⟩] 1
      = (.ok (some ⟨1, "Eve", "P", "x@y.com", 0, 0, none⟩),
         [⟨1, "Eve", "P", "x@y.com", 0, 0, none⟩])
    ∧ UserRepository.findByEmail [⟨1, "Eve", "P", "x@y.com", 0, 0, none⟩]
        "x@y.com" .jfalse
      = .ok (some ⟨1, "Eve", "P", "x@y.com", 0, 0, none⟩) := by
  have h := c4_user_restore_success [⟨1, "Eve", "P", "x@y.com", 0, 0, some 3⟩]
    ⟨1, "Eve", "P", "x@y.com", 0, 0, some 3⟩
    (by decide) (by decide) (by decide) (by decide)
  exact ⟨h.1, h.2⟩

/-- C10: for a non-admin acting user, findAllCategories behaves exactly
as if includeDeleted were false -- the service overwrites the flag to
false before querying -- so no tombstoned category is ever returned to a
non-admin, even when the caller passed includeDeleted = true. -/
theorem c10_findAllCategories_nonadmin (cs : List ICategory)
    (filters : CategoryFilters) (actingUser : ActingUser)
    (h : actingUser.isAdmin = false) :
    CategoryService.findAllCategories cs filters actingUser
      = (CategoryRepository.findAll cs { filters with includeDeleted := .jfalse },
         { filters with includeDeleted := .jfalse })
    ∧ ∀ page, (CategoryService.findAllCategories cs filters actingUser).1 = .ok page →
        ∀ c ∈ page.data, c.deletedAt = none := by
  have hfs : CategoryService.findAllCategoriesFilters filters actingUser
      = { filters with includeDeleted := .jfalse } := by
    simp [CategoryService.findAllCategoriesFilters, h]
  refine ⟨?_, ?_⟩
  · simp [CategoryService.findAllCategories, hfs]
  · intro page hpage c hcmem
    simp only [CategoryService.findAllCategories, hfs] at hpage
    simp only [CategoryRepository.findAll, Except.ok.injEq] at hpage
    subst hpage
    dsimp only at hcmem
    have h1 : c ∈ insSortBy
        (categorySortLe { filters with includeDeleted := .jfalse })
        (cs.filter (matchesCategoryQuery (CategoryRepository.generateQuery
          { filters with includeDeleted := .jfalse }))) :=
      List.drop_subset _ _ (List.take_subset _ _ hcmem)
    have h2 : c ∈ cs.filter (matchesCategoryQuery (CategoryRepository.generateQuery
        { filters with includeDeleted := .jfalse })) :=
      (mem_insSortBy _ _ _).mp h1
    have h3 := (List.mem_filter.mp h2).2
    have hq : (CategoryRepository.generateQuery
        { filters with includeDeleted := .jfalse }).deletedAt = some none := by
      simp [CategoryRepository.generateQuery]
    simp only [matchesCategoryQuery, hq, Bool.and_eq_true, beq_iff_eq,
      and_assoc] at h3
    exact h3.2.2

/-- C10 witness: a tombstoned category is invisible to a non-admin who
explicitly passes includeDeleted = true, and the filter is overwritten
to false. -/
theorem c10_findAllCategories_nonadmin_witness :
    CategoryService.findAllCategories [⟨3, "Old", "old", none, 0, 0, some 2⟩]
        { pageNumber := 1, entryPerPage := 10, includeDeleted := .jtrue } ⟨4, false⟩
      = (.ok ⟨[], false, false, 0⟩,
         { pageNumber := 1, entryPerPage := 10, includeDeleted := .jfalse }) := by
  have h := c10_findAllCategories_nonadmin [⟨3, "Old", "old", none, 0, 0, some 2⟩]
    { pageNumber := 1, entryPerPage := 10, includeDeleted := .jtrue } ⟨4, false⟩ rfl
  exact h.1
